import Mathlib

/-!
# podcast2youtube: a verification development of `main.go`

Shallow embedding of the command's pure and effectful functions.

Modelling conventions.
* A Go `string` is a Lean `String`, i.e. a sequence of Unicode scalar values.  Every
  string that reaches `dropHTMLTags` was produced by `encoding/xml`, which rejects
  input that is not valid UTF-8, so ranging over the string yields exactly its
  characters and `%c` writes each of them back unchanged.
* A Go `error` is `Option String` (`none` is `nil`, `some msg` carries `Error()`).
* External collaborators (the file system, the PNG codec, the network, the
  `podcast2youtube` package) are fields of an environment record giving the outcome of
  each call from its arguments; every call the pipeline makes to one of them is
  appended to a trace of events.
-/

set_option autoImplicit false

namespace Podcast2YouTube

/-! ## `dropHTMLTags` -/

/-- Loop state of `dropHTMLTags`: the flag `inTag` and the contents of the buffer `w`. -/
structure ScanState where
  inTag : Bool
  w : List Char
deriving Repr, DecidableEq

/-- One iteration of `for _, r := range s` in `dropHTMLTags`.
The `switch` has two cases: `!inTag && r == '<'` sets the flag and falls out of the
switch; `inTag && r == '>'` clears the flag and `continue`s.  After the switch the
character is written to the buffer when the flag is clear. -/
def scanStep (st : ScanState) (r : Char) : ScanState :=
  if !st.inTag && r == '<' then
    -- inTag = true; the following `if !inTag` is then false
    { inTag := true, w := st.w }
  else if st.inTag && r == '>' then
    -- inTag = false; continue
    { inTag := false, w := st.w }
  else if !st.inTag then
    { inTag := st.inTag, w := st.w ++ [r] }
  else
    st

/-- The whole loop of `dropHTMLTags`, started from an arbitrary state. -/
def scanFrom (st : ScanState) (s : List Char) : ScanState :=
  s.foldl scanStep st

/-- Call `strings.Replace(_, "\n", " ", -1)`: every occurrence of the one-character
string "\n" is replaced by the one-character string " ". -/
def replaceNewlines (l : List Char) : List Char :=
  l.map (fun c => if c = '\n' then ' ' else c)

/-- Function `dropHTMLTags` of `main.go`. -/
def dropHTMLTags (s : String) : String :=
  String.mk (replaceNewlines (scanFrom { inTag := false, w := [] } s.data).w)

/-- Spec-level predicate "every `<` is later closed by a `>`": whenever the text
splits around a `<`, the part after it contains a `>`. -/
def EveryOpenClosed (a : String) : Prop :=
  ∀ p q : List Char, a.data = p ++ '<' :: q → '>' ∈ q

/-! ## Go values -/

/-- A Go `error` value: `none` is `nil`, `some msg` is an error whose `Error()` is `msg`. -/
abbrev GoError := Option String

/-- An open `*os.File`, identified by a number proper to that file object. -/
abbrev File := Nat

/-- A Go `[]string` seen through one slice header: `elems` are the `len` visible
elements, `spare` are the cells of the backing array between `len` and `cap`. -/
structure GoSlice where
  elems : List String
  spare : List String
deriving Repr, DecidableEq

/-- Built-in `len`. -/
def GoSlice.len (s : GoSlice) : Nat := s.elems.length

/-- Built-in `cap`. -/
def GoSlice.cap (s : GoSlice) : Nat := s.elems.length + s.spare.length

/-- Built-in `append(s, xs...)`.  When the capacity suffices the new elements are
written into the backing array after the visible elements; otherwise a new array is
allocated (`grow cap needed` is the number of cells the runtime leaves spare, all
zero-valued) and the old array is not touched.  The first component is the slice
returned by `append`, the second is what the header `s` shows afterwards. -/
def goAppend (grow : Nat → Nat → Nat) (s : GoSlice) (xs : List String) : GoSlice × GoSlice :=
  if xs.length ≤ s.spare.length then
    ({ elems := s.elems ++ xs, spare := s.spare.drop xs.length },
     { elems := s.elems, spare := xs ++ s.spare.drop xs.length })
  else
    ({ elems := s.elems ++ xs,
       spare := List.replicate (grow s.cap (s.len + xs.length)) "" },
     s)

/-- Result of running Go code that may panic. -/
inductive Outcome (α : Type) where
  | ret (v : α)
  | panic (msg : String)
deriving Repr, DecidableEq

/-! ## `fetchEpisode` -/

/-- Type `episode` of `main.go`. -/
structure episode where
  Title : String
  Number : Int
  Link : String
  Desc : String
  MP3 : String
  Tags : GoSlice
deriving Repr, DecidableEq

/-- The `enclosure` element of an item: its `url` attribute. -/
structure Enclosure where
  URL : String
deriving Repr, DecidableEq

/-- One element of `data.Channel[_].Item` in `fetchEpisode`. -/
structure FeedItem where
  Title : String
  Number : Int
  Link : String
  Desc : String
  MP3 : Enclosure
  Category : GoSlice
deriving Repr, DecidableEq

/-- One element of `data.Channel` in `fetchEpisode`. -/
structure FeedChannel where
  Item : List FeedItem
deriving Repr, DecidableEq

/-- The local variable `data` of `fetchEpisode` after a successful `Decode`. -/
structure FeedData where
  Channel : List FeedChannel
deriving Repr, DecidableEq

/-- Collaborators of `fetchEpisode`: `http.Get` (yielding the response body) and
`xml.NewDecoder(body).Decode(&data)`. -/
structure Net where
  httpGet : String → Except String String
  xmlDecode : String → Except String FeedData

/-- The loop `for _, i := range items { if i.Number == number { return &episode{...}, nil } }`:
the episode built from the first item whose ordinal is `number`, if any. -/
def findItem (number : Int) : List FeedItem → Option episode
  | [] => none
  | i :: rest =>
    if i.Number = number then
      some { Title := i.Title, Number := i.Number, Link := i.Link, Desc := i.Desc,
             MP3 := i.MP3.URL, Tags := i.Category }
    else
      findItem number rest

/-- Function `fetchEpisode` of `main.go`.  The value returned is the pair
`(*episode, error)`; indexing `data.Channel[0]` panics when the slice is empty. -/
def fetchEpisode (net : Net) (rss : String) (number : Int) :
    Outcome (Option episode × GoError) :=
  match net.httpGet rss with
  | .error e => .ret (none, some ("could not get " ++ rss ++ ": " ++ e))
  | .ok body =>
    match net.xmlDecode body with
    | .error e => .ret (none, some ("could not decode feed: " ++ e))
    | .ok data =>
      match data.Channel with
      | [] => .panic "runtime error: index out of range [0] with length 0"
      | ch :: _ =>
        match findItem number ch.Item with
        | some ep => .ret (some ep, none)
        | none => .ret (none, some ("could not find episode " ++ toString number))

/-! ## Collaborators and events of the pipeline -/

/-- A call made to a collaborator, with its arguments. -/
inductive Event where
  | tempDir
  | removeAll (path : String)
  | logPrintf (msg : String)
  | osOpen (path : String)
  | osCreate (path : String)
  | fileClose (f : File)
  | pngDecode (f : File)
  | pngEncode (f : File)
  | createImage (text fg bg : String) (w h : Int)
  | createVideo (slide mp3 vid : String)
  | uploadToYouTube (title desc : String) (tags : GoSlice) (vid : String)
deriving Repr, DecidableEq

/-- Calls to `podcast2youtube.UploadToYouTube`. -/
def Event.isUpload : Event → Bool
  | .uploadToYouTube _ _ _ _ => true
  | _ => false

/-- Calls to `os.RemoveAll`. -/
def Event.isRemoveAll : Event → Bool
  | .removeAll _ => true
  | _ => false

/-- Calls to `log.Printf`. -/
def Event.isLogPrintf : Event → Bool
  | .logPrintf _ => true
  | _ => false

/-- Calls to `(*os.File).Close`. -/
def Event.isClose : Event → Bool
  | .fileClose _ => true
  | _ => false

/-- The package-level flag variables of `main.go`, after `flag.Parse`. -/
structure Flags where
  logo : String
  titleTmpl : String
  fgHex : String
  bgHex : String
  width : Int
  height : Int
deriving Repr, DecidableEq

/-- Outcomes of the collaborators used by `buildAndUpload`, `loadPNG` and `writePNG`.
`Img` is the type of `image.Image` values, `nilImage` the nil one. -/
structure Env (Img : Type) where
  tempDir : Except String String
  removeAll : String → GoError
  osOpen : String → Except String File
  osCreate : String → Except String File
  fileClose : File → GoError
  pngDecode : File → Except String Img
  pngEncode : File → Img → GoError
  createImage : Img → String → String → String → Int → Int → Except String Img
  createVideo : String → String → String → GoError
  uploadToYouTube : String → String → GoSlice → String → GoError
  filepathJoin : String → String → String
  sprintfTitle : String → String → Int → String
  grow : Nat → Nat → Nat
  nilImage : Img

/-! ## `loadPNG` and `writePNG` -/

/-- What `loadPNG` hands back: its named results `m` and `err`, and the calls it made. -/
structure LoadResult (Img : Type) where
  m : Img
  err : GoError
  trace : List Event

/-- Function `loadPNG` of `main.go`.  Its results are named, so the deferred closure
that closes the file assigns to the returned `err`. -/
def loadPNG {Img : Type} (env : Env Img) (path : String) : LoadResult Img :=
  match env.osOpen path with
  | .error e =>
    { m := env.nilImage, err := some ("could not open " ++ path ++ ": " ++ e),
      trace := [Event.osOpen path] }
  | .ok f =>
    -- m, err = png.Decode(f) followed by one of the two return statements
    let res : Img × GoError :=
      match env.pngDecode f with
      | .error e => (env.nilImage, some ("could not decode " ++ path ++ ": " ++ e))
      | .ok m => (m, none)
    -- deferred: if cerr := f.Close(); cerr != nil && err == nil { err = ... }
    -- (the message formats `err`, which is nil at that point)
    let err :=
      match env.fileClose f with
      | some _ => if res.2.isNone then some ("could not close " ++ path ++ ": <nil>") else res.2
      | none => res.2
    { m := res.1, err := err,
      trace := [Event.osOpen path, Event.pngDecode f, Event.fileClose f] }

/-- What `writePNG` leaves behind: `ret` is the value of its unnamed result, `err` the
final value of the local variable declared by `f, err := os.Create(path)`, and
`trace` the calls it made. -/
structure WriteResult where
  ret : GoError
  err : GoError
  trace : List Event
deriving Repr, DecidableEq

/-- Function `writePNG` of `main.go`.  Its result is unnamed: the `return` statements
fix the returned value, and the deferred closure assigns only to the local `err`. -/
def writePNG {Img : Type} (env : Env Img) (path : String) (m : Img) : WriteResult :=
  match env.osCreate path with
  | .error e =>
    { ret := some ("could not create " ++ path ++ ": " ++ e), err := some e,
      trace := [Event.osCreate path] }
  | .ok f =>
    -- the local err is nil here; `if err := png.Encode(f, m)` declares a new one
    let err : GoError := none
    let ret : GoError :=
      match env.pngEncode f m with
      | some e => some ("could not encode to " ++ path ++ ": " ++ e)
      | none => none
    -- deferred: if cerr := f.Close(); cerr != nil && err == nil { err = ... }
    let err :=
      match env.fileClose f with
      | some _ => if err.isNone then some ("could not close " ++ path ++ ": <nil>") else err
      | none => err
    { ret := ret, err := err,
      trace := [Event.osCreate path, Event.pngEncode f, Event.fileClose f] }

/-! ## `buildAndUpload` -/

/-- What a run of `buildAndUpload` leaves behind: the returned error, the calls made,
and the episode behind the pointer `ep` as it is after the run. -/
structure BuildResult where
  err : GoError
  trace : List Event
  ep : episode
deriving Repr, DecidableEq

/-- The statements of `buildAndUpload` that follow the `defer`, from `loadPNG(*logo)` to
the final `return nil`, run with the temporary directory `tmpDir`. -/
def buildAndUpload_body {Img : Type} (env : Env Img) (flags : Flags) (ep : episode)
    (tmpDir : String) : BuildResult :=
  let lr := loadPNG env flags.logo
  match lr.err with
  | some e =>
    { err := some ("could not load logo " ++ flags.logo ++ ": " ++ e), trace := lr.trace, ep := ep }
  | none =>
    let text := toString ep.Number ++ ": " ++ ep.Title
    let t1 := lr.trace ++ [Event.createImage text flags.fgHex flags.bgHex flags.width flags.height]
    match env.createImage lr.m text flags.fgHex flags.bgHex flags.width flags.height with
    | .error e => { err := some ("could not create image: " ++ e), trace := t1, ep := ep }
    | .ok m =>
      let slide := env.filepathJoin tmpDir "slide.png"
      let wr := writePNG env slide m
      let t2 := t1 ++ wr.trace
      match wr.ret with
      | some e => { err := some e, trace := t2, ep := ep }
      | none =>
        let vid := env.filepathJoin tmpDir "vid.mp4"
        let t3 := t2 ++ [Event.createVideo slide ep.MP3 vid]
        match env.createVideo slide ep.MP3 vid with
        | some e => { err := some ("could not create video: " ++ e ++ "\n"), trace := t3, ep := ep }
        | none =>
          let title := env.sprintfTitle flags.titleTmpl ep.Title ep.Number
          let desc := "Original post: " ++ ep.Link ++ "\n\n" ++ dropHTMLTags ep.Desc
          let app := goAppend env.grow ep.Tags ["gcppodcast", "podcast"]
          let tags := app.1
          let ep1 : episode := { ep with Tags := app.2 }
          let t4 := t3 ++ [Event.uploadToYouTube title desc tags vid]
          match env.uploadToYouTube title desc tags vid with
          | some e => { err := some ("could not upload to YouTube: " ++ e), trace := t4, ep := ep1 }
          | none => { err := none, trace := t4, ep := ep1 }

/-- Function `buildAndUpload` of `main.go`: create the temporary directory, register
its removal, run the body, then run the deferred removal (whose error is only logged). -/
def buildAndUpload {Img : Type} (env : Env Img) (flags : Flags) (ep : episode) : BuildResult :=
  match env.tempDir with
  | .error e =>
    { err := some ("could not create temp directory: " ++ e), trace := [Event.tempDir], ep := ep }
  | .ok tmpDir =>
    let r := buildAndUpload_body env flags ep tmpDir
    let cleanup :=
      match env.removeAll tmpDir with
      | some e => [Event.removeAll tmpDir,
                   Event.logPrintf ("could not remove " ++ tmpDir ++ ": " ++ e)]
      | none => [Event.removeAll tmpDir]
    { err := r.err, trace := Event.tempDir :: r.trace ++ cleanup, ep := r.ep }

/-- Spec-level predicate "all the steps before the upload succeeded": the temporary
directory was created, `loadPNG` returned a nil error, `CreateImage` succeeded,
`writePNG` returned nil and `CreateVideo` returned nil. -/
def AssemblyOk {Img : Type} (env : Env Img) (flags : Flags) (ep : episode) : Prop :=
  ∃ (tmpDir : String) (m : Img),
    env.tempDir = .ok tmpDir ∧
    (loadPNG env flags.logo).err = none ∧
    env.createImage (loadPNG env flags.logo).m (toString ep.Number ++ ": " ++ ep.Title)
      flags.fgHex flags.bgHex flags.width flags.height = .ok m ∧
    (writePNG env (env.filepathJoin tmpDir "slide.png") m).ret = none ∧
    env.createVideo (env.filepathJoin tmpDir "slide.png") ep.MP3
      (env.filepathJoin tmpDir "vid.mp4") = none

/-- An event of the assembly: neither an upload, nor a removal, nor a log line. -/
def Event.isAssembly (e : Event) : Bool :=
  !e.isUpload && !e.isRemoveAll && !e.isLogPrintf

/-- The steps of the body that precede the upload all succeeded. -/
def BodyOk {Img : Type} (env : Env Img) (flags : Flags) (ep : episode) (tmpDir : String) :
    Prop :=
  ∃ m : Img,
    (loadPNG env flags.logo).err = none ∧
    env.createImage (loadPNG env flags.logo).m (toString ep.Number ++ ": " ++ ep.Title)
      flags.fgHex flags.bgHex flags.width flags.height = .ok m ∧
    (writePNG env (env.filepathJoin tmpDir "slide.png") m).ret = none ∧
    env.createVideo (env.filepathJoin tmpDir "slide.png") ep.MP3
      (env.filepathJoin tmpDir "vid.mp4") = none

/-! ## Concrete scenarios -/

/-- The item of the end-to-end scenario: number 5, title "Test", one category "a". -/
def scenarioItem : FeedItem :=
  { Title := "Test", Number := 5, Link := "http://x/5", Desc := "<p>Hi</p>",
    MP3 := { URL := "http://x/5.mp3" }, Category := { elems := ["a"], spare := [] } }

/-- A second item carrying the same ordinal, later in the document. -/
def laterItem : FeedItem :=
  { Title := "Later", Number := 5, Link := "http://x/5bis", Desc := "",
    MP3 := { URL := "http://x/5bis.mp3" }, Category := { elems := [], spare := [] } }

/-- An item with another ordinal. -/
def otherItem : FeedItem :=
  { Title := "Other", Number := 4, Link := "http://x/4", Desc := "",
    MP3 := { URL := "http://x/4.mp3" }, Category := { elems := [], spare := [] } }

/-- A feed whose channel lists `otherItem`, `scenarioItem`, `laterItem` in that order. -/
def scenarioNet : Net :=
  { httpGet := fun _ => .ok "<rss><channel>...</channel></rss>",
    xmlDecode := fun _ => .ok { Channel := [{ Item := [otherItem, scenarioItem, laterItem] }] } }

/-- The document `<rss></rss>`: it decodes without error and `data.Channel` stays nil. -/
def noChannelNet : Net :=
  { httpGet := fun _ => .ok "<rss></rss>",
    xmlDecode := fun _ => .ok { Channel := [] } }

/-- The episode of the end-to-end scenario. -/
def scenarioEpisode : episode :=
  { Title := "Test", Number := 5, Link := "http://x/5", Desc := "<p>Hi</p>",
    MP3 := "http://x/5.mp3", Tags := { elems := ["a"], spare := [] } }

/-- The same episode whose tag slice has room for two more elements. -/
def roomyEpisode : episode :=
  { scenarioEpisode with Tags := { elems := ["a"], spare := ["", "", ""] } }

/-- The default values of the flags. -/
def defaultFlags : Flags :=
  { logo := "logo.png", titleTmpl := "%s: GCPPodcast %d", fgHex := "ffffff",
    bgHex := "009688", width := 1200, height := 800 }

/-- A world in which every collaborator succeeds.  Images are numbered, `none` is the
nil image. -/
def happyEnv : Env (Option Nat) :=
  { tempDir := .ok "/tmp/001"
    removeAll := fun _ => none
    osOpen := fun _ => .ok 3
    osCreate := fun _ => .ok 4
    fileClose := fun _ => none
    pngDecode := fun _ => .ok (some 1)
    pngEncode := fun _ _ => none
    createImage := fun _ _ _ _ _ _ => .ok (some 2)
    createVideo := fun _ _ _ => none
    uploadToYouTube := fun _ _ _ _ => none
    filepathJoin := fun dir file => dir ++ "/" ++ file
    sprintfTitle := fun _ title number => title ++ ": GCPPodcast " ++ toString number
    grow := fun _ needed => needed
    nilImage := none }

/-- A world in which closing any file fails and everything else succeeds. -/
def closeFailsEnv : Env (Option Nat) :=
  { happyEnv with fileClose := fun _ => some "input/output error" }

/-- A world in which closing the slide file (file 4) fails and everything else,
closing the logo (file 3) included, succeeds. -/
def slideCloseFailsEnv : Env (Option Nat) :=
  { happyEnv with fileClose := fun f => if f = 4 then some "no space left on device" else none }

/-- A world in which the encoding tool fails and everything else succeeds. -/
def encodingFailsEnv : Env (Option Nat) :=
  { happyEnv with createVideo := fun _ _ _ => some "exit status 1" }

/-- A world in which removing the temporary directory fails. -/
def removeFailsEnv : Env (Option Nat) :=
  { happyEnv with removeAll := fun _ => some "permission denied" }

/-! ### Lemmas on the scan -/

theorem scanFrom_nil (st : ScanState) : scanFrom st [] = st := rfl

theorem scanFrom_cons (st : ScanState) (r : Char) (l : List Char) :
    scanFrom st (r :: l) = scanFrom (scanStep st r) l := rfl

theorem scanFrom_append (st : ScanState) (l₁ l₂ : List Char) :
    scanFrom st (l₁ ++ l₂) = scanFrom (scanFrom st l₁) l₂ := by
  simp [scanFrom, List.foldl_append]

theorem scanStep_outside_open (w : List Char) :
    scanStep { inTag := false, w := w } '<' = { inTag := true, w := w } := by
  simp [scanStep]

theorem scanStep_outside_other (w : List Char) (r : Char) (h : r ≠ '<') :
    scanStep { inTag := false, w := w } r = { inTag := false, w := w ++ [r] } := by
  simp [scanStep, h]

theorem scanStep_inside_close (w : List Char) :
    scanStep { inTag := true, w := w } '>' = { inTag := false, w := w } := by
  simp [scanStep]

theorem scanStep_inside_other (w : List Char) (r : Char) (h : r ≠ '>') :
    scanStep { inTag := true, w := w } r = { inTag := true, w := w } := by
  simp [scanStep, h]

/-- The buffer only grows at its end, and the flag does not depend on the buffer. -/
theorem scanFrom_buffer (b : Bool) (w : List Char) (l : List Char) :
    scanFrom { inTag := b, w := w } l =
      { inTag := (scanFrom { inTag := b, w := [] } l).inTag,
        w := w ++ (scanFrom { inTag := b, w := [] } l).w } := by
  induction l generalizing b w with
  | nil => simp [scanFrom_nil]
  | cons r l ih =>
    simp only [scanFrom_cons]
    cases b
    · by_cases hr : r = '<'
      · subst hr
        rw [scanStep_outside_open, scanStep_outside_open, ih true w]
      · rw [scanStep_outside_other w r hr, scanStep_outside_other [] r hr,
          ih false (w ++ [r]), ih false ([] ++ [r])]
        simp
    · by_cases hr : r = '>'
      · subst hr
        rw [scanStep_inside_close, scanStep_inside_close, ih false w]
      · rw [scanStep_inside_other w r hr, scanStep_inside_other [] r hr, ih true w]

/-- Inside a tag, a text without `>` is discarded entirely and the scan stays inside. -/
theorem scanFrom_inTag_noClose (w : List Char) (l : List Char) (h : '>' ∉ l) :
    scanFrom { inTag := true, w := w } l = { inTag := true, w := w } := by
  induction l with
  | nil => rfl
  | cons r l ih =>
    have hr : r ≠ '>' := fun e => h (by simp [e])
    have hl : '>' ∉ l := fun e => h (by simp [e])
    simp [scanFrom_cons, scanStep, hr, ih hl]

/-- Outside a tag, a text without `<` is copied entirely and the scan stays outside. -/
theorem scanFrom_noOpen (w : List Char) (l : List Char) (h : '<' ∉ l) :
    scanFrom { inTag := false, w := w } l = { inTag := false, w := w ++ l } := by
  induction l generalizing w with
  | nil => simp [scanFrom_nil]
  | cons r l ih =>
    have hr : r ≠ '<' := fun e => h (by simp [e])
    have hl : '<' ∉ l := fun e => h (by simp [e])
    simp [scanFrom_cons, scanStep, hr, ih _ hl]

/-- If the scan ends inside a tag, then either it started inside one and met no `>`,
or the text has a `<` with no `>` after it. -/
theorem scanFrom_endsInTag (b : Bool) (w : List Char) (l : List Char)
    (h : (scanFrom { inTag := b, w := w } l).inTag = true) :
    (b = true ∧ '>' ∉ l) ∨ ∃ p q, l = p ++ '<' :: q ∧ '>' ∉ q := by
  induction l generalizing b w with
  | nil =>
    left
    simpa [scanFrom_nil] using h
  | cons r l ih =>
    rw [scanFrom_cons] at h
    cases b
    · right
      by_cases hr : r = '<'
      · subst hr
        rw [scanStep_outside_open] at h
        rcases ih true w h with ⟨-, hq⟩ | ⟨p, q, hl, hq⟩
        · exact ⟨[], l, by simp, hq⟩
        · exact ⟨'<' :: p, q, by simp [hl], hq⟩
      · rw [scanStep_outside_other w r hr] at h
        rcases ih false _ h with ⟨hb, -⟩ | ⟨p, q, hl, hq⟩
        · cases hb
        · exact ⟨r :: p, q, by simp [hl], hq⟩
    · by_cases hr : r = '>'
      · subst hr
        rw [scanStep_inside_close] at h
        rcases ih false w h with ⟨hb, -⟩ | ⟨p, q, hl, hq⟩
        · cases hb
        · right
          exact ⟨'>' :: p, q, by simp [hl], hq⟩
      · rw [scanStep_inside_other w r hr] at h
        rcases ih true w h with ⟨-, hq⟩ | ⟨p, q, hl, hq⟩
        · left
          refine ⟨rfl, ?_⟩
          simp [hq, Ne.symm hr]
        · right
          exact ⟨r :: p, q, by simp [hl], hq⟩

/-- A text in which every `<` is later closed leaves the scan outside a tag. -/
theorem scanFrom_closed (a : String) (ha : EveryOpenClosed a) :
    (scanFrom { inTag := false, w := [] } a.data).inTag = false := by
  cases h : (scanFrom { inTag := false, w := [] } a.data).inTag with
  | false => rfl
  | true =>
    rcases scanFrom_endsInTag false [] a.data h with ⟨hb, -⟩ | ⟨p, q, hl, hq⟩
    · cases hb
    · exact absurd (ha p q hl) hq

/-- Conversely, a scan that ends outside a tag closed every `<` it met. -/
theorem closed_of_scanFrom (a : String)
    (h : (scanFrom { inTag := false, w := [] } a.data).inTag = false) :
    EveryOpenClosed a := by
  intro p q hpq
  by_contra hq
  rw [hpq, scanFrom_append, scanFrom_cons] at h
  have h3 : (scanStep (scanFrom { inTag := false, w := [] } p) '<').inTag = true := by
    cases hb : (scanFrom { inTag := false, w := [] } p).inTag <;> simp [scanStep, hb]
  have h4 : scanStep (scanFrom { inTag := false, w := [] } p) '<' =
      { inTag := true, w := (scanStep (scanFrom { inTag := false, w := [] } p) '<').w } := by
    cases hs : scanStep (scanFrom { inTag := false, w := [] } p) '<' with
    | mk i w' =>
      rw [hs] at h3
      simp only at h3
      simp [h3]
  rw [h4, scanFrom_inTag_noClose _ _ hq] at h
  simp at h

theorem replaceNewlines_append (l₁ l₂ : List Char) :
    replaceNewlines (l₁ ++ l₂) = replaceNewlines l₁ ++ replaceNewlines l₂ := by
  simp [replaceNewlines]

/-- The characters of `dropHTMLTags s`. -/
theorem dropHTMLTags_data (s : String) :
    (dropHTMLTags s).data =
      replaceNewlines (scanFrom { inTag := false, w := [] } s.data).w := rfl

/-- A closed text is scanned to the state "outside a tag" holding its kept characters. -/
theorem scanFrom_closed_state (a : String) (ha : EveryOpenClosed a) :
    scanFrom { inTag := false, w := [] } a.data =
      { inTag := false, w := (scanFrom { inTag := false, w := [] } a.data).w } := by
  have h := scanFrom_closed a ha
  cases hs : scanFrom { inTag := false, w := [] } a.data with
  | mk i w' =>
    rw [hs] at h
    simp only at h
    simp [h]

/-- Replacing newlines by spaces keeps the UTF-8 length: both are one byte long. -/
theorem utf8ByteSize_go_replace (l : List Char) :
    String.utf8ByteSize.go (l.map (fun c => if c = '\n' then ' ' else c)) =
      String.utf8ByteSize.go l := by
  induction l with
  | nil => rfl
  | cons c l ih =>
    simp only [List.map_cons, String.utf8ByteSize.go, ih]
    by_cases h : c = '\n'
    · subst h
      rfl
    · rw [if_neg h]

/-! ## Claims on `dropHTMLTags` -/

/-- C1: `dropHTMLTags` removes a tag and keeps what surrounds it.  For every text `a`
in which every `<` is later closed by a `>`, every text `b` without `>` and every text
`c`, `dropHTMLTags (a ++ "<" ++ b ++ ">" ++ c) = dropHTMLTags a ++ dropHTMLTags c`;
in particular `dropHTMLTags "a<b>c</b>d" = "acd"`. -/
theorem dropHTMLTags_removes_tag (a b c : String) (ha : EveryOpenClosed a)
    (hb : '>' ∉ b.data) :
    dropHTMLTags (a ++ "<" ++ b ++ ">" ++ c) = dropHTMLTags a ++ dropHTMLTags c ∧
      dropHTMLTags "a<b>c</b>d" = "acd" := by
  refine ⟨?_, by decide⟩
  apply String.ext
  have hd : (a ++ "<" ++ b ++ ">" ++ c).data = a.data ++ ('<' :: (b.data ++ ('>' :: c.data))) := by
    simp [String.data_append]
  rw [String.data_append, dropHTMLTags_data, dropHTMLTags_data, dropHTMLTags_data, hd,
    scanFrom_append, scanFrom_closed_state a ha, scanFrom_cons, scanStep_outside_open,
    scanFrom_append, scanFrom_inTag_noClose _ _ hb, scanFrom_cons, scanStep_inside_close,
    scanFrom_buffer, replaceNewlines_append]

/-- Witness for C1 at `a = "x<i>y"`, `b = "b"`, `c = "z\nw"`. -/
theorem dropHTMLTags_removes_tag_witness :
    dropHTMLTags ("x<i>y" ++ "<" ++ "b" ++ ">" ++ "z\nw") = "xy" ++ "z w" ∧
      dropHTMLTags "a<b>c</b>d" = "acd" := by
  have h := dropHTMLTags_removes_tag "x<i>y" "b" "z\nw"
    (closed_of_scanFrom "x<i>y" (by decide)) (by decide)
  have h1 : dropHTMLTags "x<i>y" = "xy" := by decide
  have h2 : dropHTMLTags "z\nw" = "z w" := by decide
  rw [h1, h2] at h
  exact h

/-- C8: an unmatched `<` truncates the output.  For every text `a` in which every `<`
is later closed by a `>` and every text `t` without `>`,
`dropHTMLTags (a ++ "<" ++ t) = dropHTMLTags a`; in particular
`dropHTMLTags "x<unterminated" = "x"`. -/
theorem dropHTMLTags_unmatched_open (a t : String) (ha : EveryOpenClosed a)
    (ht : '>' ∉ t.data) :
    dropHTMLTags (a ++ "<" ++ t) = dropHTMLTags a ∧
      dropHTMLTags "x<unterminated" = "x" := by
  refine ⟨?_, by decide⟩
  apply String.ext
  have hd : (a ++ "<" ++ t).data = a.data ++ ('<' :: t.data) := by
    simp [String.data_append]
  rw [dropHTMLTags_data, dropHTMLTags_data, hd, scanFrom_append, scanFrom_closed_state a ha,
    scanFrom_cons, scanStep_outside_open, scanFrom_inTag_noClose _ _ ht]

/-- Witness for C8 at `a = "3 > 2 <b>yes</b>"`, `t = "a href"`. -/
theorem dropHTMLTags_unmatched_open_witness :
    dropHTMLTags ("3 > 2 <b>yes</b>" ++ "<" ++ "a href") = "3 > 2 yes" ∧
      dropHTMLTags "x<unterminated" = "x" := by
  have h := dropHTMLTags_unmatched_open "3 > 2 <b>yes</b>" "a href"
    (closed_of_scanFrom "3 > 2 <b>yes</b>" (by decide)) (by decide)
  have h1 : dropHTMLTags "3 > 2 <b>yes</b>" = "3 > 2 yes" := by decide
  rw [h1] at h
  exact h

/-- C9: text outside tags is kept verbatim except for newlines.  For every text `s`
without `<`, `dropHTMLTags s` is `s` with each newline replaced by one space and every
other character (an unmatched `>` included) unchanged in place; the output has the
length of `s`, in characters and in bytes, and holds no newline; in particular
`dropHTMLTags "line1\nline2" = "line1 line2"`. -/
theorem dropHTMLTags_no_open (s : String) (hs : '<' ∉ s.data) :
    (dropHTMLTags s).data = s.data.map (fun c => if c = '\n' then ' ' else c) ∧
      (dropHTMLTags s).length = s.length ∧
      (dropHTMLTags s).utf8ByteSize = s.utf8ByteSize ∧
      '\n' ∉ (dropHTMLTags s).data ∧
      dropHTMLTags "line1\nline2" = "line1 line2" := by
  have hd : (dropHTMLTags s).data = s.data.map (fun c => if c = '\n' then ' ' else c) := by
    rw [dropHTMLTags_data, scanFrom_noOpen _ _ hs]
    simp [replaceNewlines]
  refine ⟨hd, ?_, ?_, ?_, by decide⟩
  · show (dropHTMLTags s).data.length = s.data.length
    rw [hd, List.length_map]
  · show String.utf8ByteSize.go (dropHTMLTags s).data = String.utf8ByteSize.go s.data
    rw [hd]
    exact utf8ByteSize_go_replace s.data
  · rw [hd]
    intro h
    rcases List.mem_map.1 h with ⟨c, -, hc⟩
    by_cases h' : c = '\n'
    · rw [if_pos h'] at hc
      exact absurd hc (by decide)
    · rw [if_neg h'] at hc
      exact h' hc

/-- Witness for C9 at `s = "a > b\nc"`. -/
theorem dropHTMLTags_no_open_witness :
    (dropHTMLTags "a > b\nc").data = "a > b c".data ∧
      (dropHTMLTags "a > b\nc").length = 7 := by
  have h := dropHTMLTags_no_open "a > b\nc" (by decide)
  exact ⟨by rw [h.1]; decide, by rw [h.2.1]; decide⟩

/-! ## Claims on `fetchEpisode` -/

/-- The scan of the items returns the episode built from the first matching item. -/
theorem findItem_first (number : Int) (items : List FeedItem)
    (h : ∃ i ∈ items, i.Number = number) :
    ∃ pre i post, items = pre ++ i :: post ∧ (∀ j ∈ pre, j.Number ≠ number) ∧
      i.Number = number ∧
      findItem number items =
        some { Title := i.Title, Number := i.Number, Link := i.Link, Desc := i.Desc,
               MP3 := i.MP3.URL, Tags := i.Category } := by
  induction items with
  | nil =>
    rcases h with ⟨i, hi, -⟩
    cases hi
  | cons x xs ih =>
    by_cases hx : x.Number = number
    · exact ⟨[], x, xs, rfl, by simp, hx, by simp [findItem, hx]⟩
    · have h' : ∃ i ∈ xs, i.Number = number := by
        rcases h with ⟨i, hi, hn⟩
        rcases List.mem_cons.1 hi with rfl | hi'
        · exact absurd hn hx
        · exact ⟨i, hi', hn⟩
      rcases ih h' with ⟨pre, i, post, hsplit, hpre, hi, hfind⟩
      refine ⟨x :: pre, i, post, by simp [hsplit], ?_, hi, by simp [findItem, hx, hfind]⟩
      intro j hj
      rcases List.mem_cons.1 hj with rfl | hj'
      · exact hx
      · exact hpre j hj'

/-- The scan of the items finds nothing when no item carries the ordinal. -/
theorem findItem_none (number : Int) (items : List FeedItem)
    (h : ∀ i ∈ items, i.Number ≠ number) : findItem number items = none := by
  induction items with
  | nil => rfl
  | cons x xs ih =>
    have hx : x.Number ≠ number := h x (by simp)
    have hxs : ∀ i ∈ xs, i.Number ≠ number := fun i hi => h i (by simp [hi])
    simp [findItem, hx, ih hxs]

/-- C2: `fetchEpisode` returns the first matching item unmodified.  For every
successfully fetched and decoded feed and every number, if some item of the feed's
(first) channel has that ordinal, `fetchEpisode` returns a nil error and an episode
whose `Title`, `Number`, `Link`, `Desc`, `MP3` and `Tags` are the title, order, guid,
summary, enclosure url and category list of the first such item in document order;
the returned `Number` is the requested number. -/
theorem fetchEpisode_first_match (net : Net) (rss body : String) (number : Int)
    (data : FeedData) (ch : FeedChannel) (rest : List FeedChannel)
    (hget : net.httpGet rss = .ok body) (hdec : net.xmlDecode body = .ok data)
    (hch : data.Channel = ch :: rest) (hex : ∃ i ∈ ch.Item, i.Number = number) :
    ∃ pre i post, ch.Item = pre ++ i :: post ∧ (∀ j ∈ pre, j.Number ≠ number) ∧
      i.Number = number ∧
      fetchEpisode net rss number =
        .ret (some { Title := i.Title, Number := i.Number, Link := i.Link, Desc := i.Desc,
                     MP3 := i.MP3.URL, Tags := i.Category }, none) := by
  rcases findItem_first number ch.Item hex with ⟨pre, i, post, hsplit, hpre, hi, hfind⟩
  refine ⟨pre, i, post, hsplit, hpre, hi, ?_⟩
  simp only [fetchEpisode, hget, hdec, hch, hfind]

/-- Witness for C2: of two items numbered 5, the one earlier in the document is returned. -/
theorem fetchEpisode_first_match_witness :
    ∃ pre i post, [otherItem, scenarioItem, laterItem] = pre ++ i :: post ∧
      (∀ j ∈ pre, j.Number ≠ 5) ∧ i.Number = 5 ∧
      fetchEpisode scenarioNet "feed" 5 =
        .ret (some { Title := i.Title, Number := i.Number, Link := i.Link, Desc := i.Desc,
                     MP3 := i.MP3.URL, Tags := i.Category }, none) :=
  fetchEpisode_first_match scenarioNet "feed" "<rss><channel>...</channel></rss>" 5
    { Channel := [{ Item := [otherItem, scenarioItem, laterItem] }] }
    { Item := [otherItem, scenarioItem, laterItem] } [] rfl rfl rfl
    ⟨scenarioItem, by simp, rfl⟩

/-- The episode returned in the scenario is the scenario episode itself. -/
theorem fetchEpisode_scenario :
    fetchEpisode scenarioNet "feed" 5 = .ret (some scenarioEpisode, none) := by
  decide

/-- With at least one channel, a number carried by no item of the first channel yields
the not-found error naming that number. -/
theorem fetchEpisode_not_found (net : Net) (rss body : String) (number : Int)
    (data : FeedData) (ch : FeedChannel) (rest : List FeedChannel)
    (hget : net.httpGet rss = .ok body) (hdec : net.xmlDecode body = .ok data)
    (hch : data.Channel = ch :: rest) (hno : ∀ i ∈ ch.Item, i.Number ≠ number) :
    fetchEpisode net rss number =
      .ret (none, some ("could not find episode " ++ toString number)) := by
  simp only [fetchEpisode, hget, hdec, hch, findItem_none number ch.Item hno]

/-- C3, evaluated at the failing input: on a document that decodes to no channel at
all, no item has ordinal 5, yet `fetchEpisode` does not return the error
"could not find episode 5": evaluating `data.Channel[0]` panics. -/
theorem fetchEpisode_no_channel_panics :
    fetchEpisode noChannelNet "feed" 5 =
        .panic "runtime error: index out of range [0] with length 0" ∧
      fetchEpisode noChannelNet "feed" 5 ≠
        .ret (none, some ("could not find episode " ++ toString (5 : Int))) := by
  decide

/-! ## Lemmas on the pipeline -/

theorem loadPNG_trace_assembly {Img : Type} (env : Env Img) (path : String) :
    ∀ e ∈ (loadPNG env path).trace, e.isAssembly = true := by
  unfold loadPNG
  split <;> simp [Event.isAssembly, Event.isUpload, Event.isRemoveAll, Event.isLogPrintf]

theorem writePNG_trace_assembly {Img : Type} (env : Env Img) (path : String) (m : Img) :
    ∀ e ∈ (writePNG env path m).trace, e.isAssembly = true := by
  unfold writePNG
  split <;> simp [Event.isAssembly, Event.isUpload, Event.isRemoveAll, Event.isLogPrintf]

/-- The two ways the body can run: either every step before the upload succeeded and
the trace ends with the one upload call, or one of them failed, the body returned an
error and the trace holds assembly events only. -/
theorem buildAndUpload_body_cases {Img : Type} (env : Env Img) (flags : Flags)
    (ep : episode) (tmpDir : String) :
    (BodyOk env flags ep tmpDir ∧
      ∃ pre, (∀ e ∈ pre, e.isAssembly = true) ∧
        (buildAndUpload_body env flags ep tmpDir).trace =
          pre ++ [Event.uploadToYouTube
            (env.sprintfTitle flags.titleTmpl ep.Title ep.Number)
            ("Original post: " ++ ep.Link ++ "\n\n" ++ dropHTMLTags ep.Desc)
            (goAppend env.grow ep.Tags ["gcppodcast", "podcast"]).1
            (env.filepathJoin tmpDir "vid.mp4")] ∧
        (buildAndUpload_body env flags ep tmpDir).ep =
          { ep with Tags := (goAppend env.grow ep.Tags ["gcppodcast", "podcast"]).2 }) ∨
    (¬ BodyOk env flags ep tmpDir ∧
      (buildAndUpload_body env flags ep tmpDir).err ≠ none ∧
      (∀ e ∈ (buildAndUpload_body env flags ep tmpDir).trace, e.isAssembly = true) ∧
      (buildAndUpload_body env flags ep tmpDir).ep = ep) := by
  have hl := loadPNG_trace_assembly env flags.logo
  cases h1 : (loadPNG env flags.logo).err with
  | some e1 =>
    right
    refine ⟨?_, ?_, ?_, ?_⟩
    · rintro ⟨m, h, -⟩
      rw [h1] at h
      cases h
    all_goals simp only [buildAndUpload_body, h1]
    · simp
    · exact hl
  | none =>
    cases h2 : env.createImage (loadPNG env flags.logo).m (toString ep.Number ++ ": " ++ ep.Title)
        flags.fgHex flags.bgHex flags.width flags.height with
    | error e2 =>
      right
      refine ⟨?_, ?_, ?_, ?_⟩
      · rintro ⟨m, -, h, -⟩
        rw [h2] at h
        cases h
      all_goals simp only [buildAndUpload_body, h1, h2]
      · simp
      · intro e he
        rcases List.mem_append.1 he with he | he
        · exact hl e he
        · simp at he
          subst he
          rfl
    | ok m =>
      have hw := writePNG_trace_assembly env (env.filepathJoin tmpDir "slide.png") m
      cases h3 : (writePNG env (env.filepathJoin tmpDir "slide.png") m).ret with
      | some e3 =>
        right
        refine ⟨?_, ?_, ?_, ?_⟩
        · rintro ⟨m', -, h, h', -⟩
          rw [h2] at h
          cases h
          rw [h3] at h'
          cases h'
        all_goals simp only [buildAndUpload_body, h1, h2, h3]
        · simp
        · intro e he
          rcases List.mem_append.1 he with he | he
          · rcases List.mem_append.1 he with he | he
            · exact hl e he
            · simp at he
              subst he
              rfl
          · exact hw e he
      | none =>
        have hpre : ∀ e ∈ ((loadPNG env flags.logo).trace ++
            [Event.createImage (toString ep.Number ++ ": " ++ ep.Title) flags.fgHex
              flags.bgHex flags.width flags.height] ++
            (writePNG env (env.filepathJoin tmpDir "slide.png") m).trace) ++
            [Event.createVideo (env.filepathJoin tmpDir "slide.png") ep.MP3
              (env.filepathJoin tmpDir "vid.mp4")], e.isAssembly = true := by
          intro e he
          rcases List.mem_append.1 he with he | he
          · rcases List.mem_append.1 he with he | he
            · rcases List.mem_append.1 he with he | he
              · exact hl e he
              · simp at he
                subst he
                rfl
            · exact hw e he
          · simp at he
            subst he
            rfl
        cases h4 : env.createVideo (env.filepathJoin tmpDir "slide.png") ep.MP3
            (env.filepathJoin tmpDir "vid.mp4") with
        | some e4 =>
          right
          refine ⟨?_, ?_, ?_, ?_⟩
          · rintro ⟨m', -, h, -, h'⟩
            rw [h4] at h'
            cases h'
          all_goals simp only [buildAndUpload_body, h1, h2, h3, h4]
          · simp
          · exact hpre
        | none =>
          left
          refine ⟨⟨m, h1, h2, h3, h4⟩, _, hpre, ?_, ?_⟩
          · simp only [buildAndUpload_body, h1, h2, h3, h4]
            split <;> rfl
          · simp only [buildAndUpload_body, h1, h2, h3, h4]
            split <;> rfl

theorem isAssembly_not_upload (e : Event) (h : e.isAssembly = true) : e.isUpload = false := by
  cases e <;> simp_all [Event.isAssembly, Event.isUpload]

theorem isAssembly_not_removeAll (e : Event) (h : e.isAssembly = true) :
    e.isRemoveAll = false := by
  cases e <;> simp_all [Event.isAssembly, Event.isRemoveAll]

theorem isAssembly_not_logPrintf (e : Event) (h : e.isAssembly = true) :
    e.isLogPrintf = false := by
  cases e <;> simp_all [Event.isAssembly, Event.isLogPrintf]

/-- The two ways `buildAndUpload` can run: the temporary directory could not be
created and nothing else was attempted, or it was created, the body ran, and the
directory was removed afterwards, followed at most by log lines. -/
theorem buildAndUpload_cases {Img : Type} (env : Env Img) (flags : Flags) (ep : episode) :
    (∃ e, env.tempDir = .error e ∧
      (buildAndUpload env flags ep).trace = [Event.tempDir] ∧
      (buildAndUpload env flags ep).err = some ("could not create temp directory: " ++ e) ∧
      (buildAndUpload env flags ep).ep = ep) ∨
    (∃ tmpDir post, env.tempDir = .ok tmpDir ∧
      (buildAndUpload env flags ep).trace =
        Event.tempDir :: (buildAndUpload_body env flags ep tmpDir).trace ++
          Event.removeAll tmpDir :: post ∧
      (∀ e ∈ post, e.isLogPrintf = true) ∧
      (buildAndUpload env flags ep).err = (buildAndUpload_body env flags ep tmpDir).err ∧
      (buildAndUpload env flags ep).ep = (buildAndUpload_body env flags ep tmpDir).ep) := by
  cases h : env.tempDir with
  | error e =>
    left
    exact ⟨e, rfl, by simp only [buildAndUpload, h], by simp only [buildAndUpload, h],
      by simp only [buildAndUpload, h]⟩
  | ok tmpDir =>
    right
    cases hr : env.removeAll tmpDir with
    | none =>
      exact ⟨tmpDir, [], rfl, by simp only [buildAndUpload, h, hr], by simp,
        by simp only [buildAndUpload, h], by simp only [buildAndUpload, h]⟩
    | some e =>
      exact ⟨tmpDir, [Event.logPrintf ("could not remove " ++ tmpDir ++ ": " ++ e)], rfl,
        by simp only [buildAndUpload, h, hr], by simp [Event.isLogPrintf],
        by simp only [buildAndUpload, h], by simp only [buildAndUpload, h]⟩

theorem assemblyOk_iff {Img : Type} (env : Env Img) (flags : Flags) (ep : episode) :
    AssemblyOk env flags ep ↔ ∃ tmpDir, env.tempDir = .ok tmpDir ∧ BodyOk env flags ep tmpDir := by
  constructor
  · rintro ⟨d, m, h0, h1, h2, h3, h4⟩
    exact ⟨d, h0, m, h1, h2, h3, h4⟩
  · rintro ⟨d, h0, m, h1, h2, h3, h4⟩
    exact ⟨d, m, h0, h1, h2, h3, h4⟩

/-- Every upload call found in the trace is the one call the body makes after a
successful assembly, with the arguments derived from the episode. -/
theorem upload_mem_trace {Img : Type} (env : Env Img) (flags : Flags) (ep : episode)
    (e : Event) (he : e ∈ (buildAndUpload env flags ep).trace) (hu : e.isUpload = true) :
    ∃ tmpDir, env.tempDir = .ok tmpDir ∧ BodyOk env flags ep tmpDir ∧
      e = Event.uploadToYouTube
        (env.sprintfTitle flags.titleTmpl ep.Title ep.Number)
        ("Original post: " ++ ep.Link ++ "\n\n" ++ dropHTMLTags ep.Desc)
        (goAppend env.grow ep.Tags ["gcppodcast", "podcast"]).1
        (env.filepathJoin tmpDir "vid.mp4") := by
  rcases buildAndUpload_cases env flags ep with ⟨x, -, ht, -, -⟩ | ⟨d, post, hd, ht, hpost, -, -⟩
  · rw [ht] at he
    simp at he
    subst he
    cases hu
  · refine ⟨d, hd, ?_⟩
    rw [ht] at he
    rcases List.mem_cons.1 he with rfl | he
    · cases hu
    rcases List.mem_append.1 he with he | he
    · rcases buildAndUpload_body_cases env flags ep d with
        ⟨hok, pre, hpre, hb, -⟩ | ⟨-, -, hall, -⟩
      · refine ⟨hok, ?_⟩
        rw [hb] at he
        rcases List.mem_append.1 he with he | he
        · rw [isAssembly_not_upload e (hpre e he)] at hu
          cases hu
        · simpa using he
      · rw [isAssembly_not_upload e (hall e he)] at hu
        cases hu
    · rcases List.mem_cons.1 he with rfl | he
      · cases hu
      · have := hpost e he
        cases e <;> simp_all [Event.isLogPrintf, Event.isUpload]

theorem goAppend_fst_elems (grow : Nat → Nat → Nat) (s : GoSlice) (xs : List String) :
    (goAppend grow s xs).1.elems = s.elems ++ xs := by
  unfold goAppend
  split <;> rfl

theorem goAppend_snd_elems (grow : Nat → Nat → Nat) (s : GoSlice) (xs : List String) :
    (goAppend grow s xs).2.elems = s.elems := by
  unfold goAppend
  split <;> rfl

/-- The header of the appended-to slice keeps its length and its capacity. -/
theorem goAppend_snd_len_cap (grow : Nat → Nat → Nat) (s : GoSlice) (xs : List String) :
    (goAppend grow s xs).2.len = s.len ∧ (goAppend grow s xs).2.cap = s.cap := by
  by_cases h : xs.length ≤ s.spare.length
  · simp only [goAppend, if_pos h, GoSlice.len, GoSlice.cap, List.length_append,
      List.length_drop]
    refine ⟨trivial, ?_⟩
    omega
  · simp only [goAppend, if_neg h]
    exact ⟨trivial, trivial⟩

/-- Whatever happens, the visible elements of the episode's tags are what they were. -/
theorem buildAndUpload_ep_tags {Img : Type} (env : Env Img) (flags : Flags) (ep : episode) :
    (buildAndUpload env flags ep).ep.Tags.elems = ep.Tags.elems := by
  rcases buildAndUpload_cases env flags ep with ⟨x, -, -, -, hep⟩ | ⟨d, post, -, -, -, -, hep⟩
  · rw [hep]
  · rw [hep]
    rcases buildAndUpload_body_cases env flags ep d with ⟨-, pre, -, -, hb⟩ | ⟨-, -, -, hb⟩
    · rw [hb]
      exact goAppend_snd_elems _ _ _
    · rw [hb]

/-- The value `writePNG` returns is nil exactly when creating and encoding succeeded;
the outcome of closing the file plays no part. -/
theorem writePNG_ret_none_iff {Img : Type} (env : Env Img) (path : String) (m : Img) :
    (writePNG env path m).ret = none ↔
      ∃ f, env.osCreate path = .ok f ∧ env.pngEncode f m = none := by
  unfold writePNG
  cases h : env.osCreate path with
  | error e => simp
  | ok f =>
    cases h' : env.pngEncode f m <;> simp [h']

/-- Once created, the file is closed exactly once by `writePNG`, after the encoding, and
not at all otherwise. -/
theorem writePNG_closes_once {Img : Type} (env : Env Img) (path : String) (m : Img) :
    (∀ f, env.osCreate path = .ok f →
      (writePNG env path m).trace =
          [Event.osCreate path, Event.pngEncode f, Event.fileClose f] ∧
        (writePNG env path m).trace.countP Event.isClose = 1) ∧
    (∀ e, env.osCreate path = .error e →
      (writePNG env path m).trace = [Event.osCreate path] ∧
        (writePNG env path m).trace.countP Event.isClose = 0) := by
  constructor
  · intro f h
    simp [writePNG, h, Event.isClose]
  · intro e h
    simp [writePNG, h, Event.isClose]

/-- The sibling `loadPNG` returns a nil error only if opening, decoding and closing all
succeeded. -/
theorem loadPNG_err_none_iff {Img : Type} (env : Env Img) (path : String) :
    (loadPNG env path).err = none ↔
      ∃ f m, env.osOpen path = .ok f ∧ env.pngDecode f = .ok m ∧ env.fileClose f = none := by
  unfold loadPNG
  cases h : env.osOpen path with
  | error e => simp
  | ok f =>
    cases h' : env.pngDecode f <;> cases h'' : env.fileClose f <;> simp [h', h'']

/-- The body never looks at the outcome of `os.RemoveAll`. -/
theorem buildAndUpload_body_removeAll {Img : Type} (env : Env Img) (flags : Flags)
    (ep : episode) (tmpDir : String) (rm : String → GoError) :
    buildAndUpload_body { env with removeAll := rm } flags ep tmpDir =
      buildAndUpload_body env flags ep tmpDir := rfl

/-- The returned error does not depend on the outcome of `os.RemoveAll`. -/
theorem buildAndUpload_err_removeAll {Img : Type} (env : Env Img) (flags : Flags)
    (ep : episode) (rm : String → GoError) :
    (buildAndUpload { env with removeAll := rm } flags ep).err =
      (buildAndUpload env flags ep).err := by
  cases env with
  | mk td rmv oo oc fc pd pe ci cv up fj st g ni =>
    cases td <;> rfl

/-- After a successful assembly the upload is called exactly once. -/
theorem buildAndUpload_uploads_when_ok {Img : Type} (env : Env Img) (flags : Flags)
    (ep : episode) (h : AssemblyOk env flags ep) :
    (buildAndUpload env flags ep).trace.countP Event.isUpload = 1 := by
  rcases (assemblyOk_iff env flags ep).1 h with ⟨d, hd, hok⟩
  rcases buildAndUpload_cases env flags ep with ⟨x, hx, -⟩ | ⟨d', post, hd', ht, hpost, -, -⟩
  · rw [hx] at hd
    cases hd
  · have hdd : d' = d := by
      rw [hd'] at hd
      exact Except.ok.inj hd
    subst hdd
    rcases buildAndUpload_body_cases env flags ep d' with ⟨-, pre, hpre, hb, -⟩ | ⟨hno, -⟩
    · have h1 : List.countP Event.isUpload pre = 0 :=
        List.countP_eq_zero.2 fun e he => by simp [isAssembly_not_upload e (hpre e he)]
      have h2 : List.countP Event.isUpload post = 0 :=
        List.countP_eq_zero.2 fun e he => by
          have := hpost e he
          cases e <;> simp_all [Event.isLogPrintf, Event.isUpload]
      rw [ht, hb]
      simp [List.countP_cons, List.countP_append, h1, h2, Event.isUpload]
    · exact absurd hok hno

/-! ## Claims on `buildAndUpload` and `writePNG` -/

/-- C4: publish is reached only after a successful assembly and at most once.  For every
episode and every combination of collaborator outcomes, `UploadToYouTube` is called at
most once; it is called only if creating the temporary directory, `loadPNG`,
`CreateImage`, `writePNG` and `CreateVideo` all returned without error; and if one of
them fails, `buildAndUpload` returns a non-nil error and `UploadToYouTube` is never
called. -/
theorem buildAndUpload_publish_after_assembly {Img : Type} (env : Env Img) (flags : Flags)
    (ep : episode) :
    (buildAndUpload env flags ep).trace.countP Event.isUpload ≤ 1 ∧
    ((∃ e ∈ (buildAndUpload env flags ep).trace, e.isUpload = true) →
      AssemblyOk env flags ep) ∧
    (¬ AssemblyOk env flags ep →
      (buildAndUpload env flags ep).err ≠ none ∧
      ∀ e ∈ (buildAndUpload env flags ep).trace, e.isUpload = false) := by
  have honly : (∃ e ∈ (buildAndUpload env flags ep).trace, e.isUpload = true) →
      AssemblyOk env flags ep := by
    rintro ⟨e, he, hu⟩
    rcases upload_mem_trace env flags ep e he hu with ⟨d, hd, hok, -⟩
    exact (assemblyOk_iff env flags ep).2 ⟨d, hd, hok⟩
  refine ⟨?_, honly, ?_⟩
  · by_cases hok : AssemblyOk env flags ep
    · exact le_of_eq (buildAndUpload_uploads_when_ok env flags ep hok)
    · have h0 : List.countP Event.isUpload (buildAndUpload env flags ep).trace = 0 :=
        List.countP_eq_zero.2 fun e he hu => hok (honly ⟨e, he, hu⟩)
      omega
  · intro hno
    constructor
    · rcases buildAndUpload_cases env flags ep with ⟨x, -, -, herr, -⟩ | ⟨d, post, hd, -, -, herr, -⟩
      · rw [herr]
        simp
      · rw [herr]
        rcases buildAndUpload_body_cases env flags ep d with ⟨hok, -⟩ | ⟨-, hb, -⟩
        · exact absurd ((assemblyOk_iff env flags ep).2 ⟨d, hd, hok⟩) hno
        · exact hb
    · intro e he
      cases hu : e.isUpload with
      | false => rfl
      | true => exact absurd (honly ⟨e, he, hu⟩) hno

/-- Witness for C4: when the encoding tool fails the assembly has not succeeded, the run
returns an error and nothing is uploaded; when every step succeeds the upload is in
the trace. -/
theorem buildAndUpload_publish_after_assembly_witness :
    (¬ AssemblyOk encodingFailsEnv defaultFlags scenarioEpisode ∧
      (buildAndUpload encodingFailsEnv defaultFlags scenarioEpisode).err ≠ none ∧
      ∀ e ∈ (buildAndUpload encodingFailsEnv defaultFlags scenarioEpisode).trace,
        e.isUpload = false) ∧
    AssemblyOk happyEnv defaultFlags scenarioEpisode := by
  have hno : ¬ AssemblyOk encodingFailsEnv defaultFlags scenarioEpisode := by
    rintro ⟨d, m, -, -, -, -, h⟩
    simp [encodingFailsEnv] at h
  refine ⟨⟨hno, (buildAndUpload_publish_after_assembly encodingFailsEnv defaultFlags
    scenarioEpisode).2.2 hno⟩, ?_⟩
  exact (buildAndUpload_publish_after_assembly happyEnv defaultFlags scenarioEpisode).2.1
    ⟨Event.uploadToYouTube "Test: GCPPodcast 5" "Original post: http://x/5\n\nHi"
      { elems := ["a", "gcppodcast", "podcast"], spare := ["", "", ""] } "/tmp/001/vid.mp4",
      by decide, rfl⟩

/-- C5: the workspace is removed on every exit path and a cleanup error never masks the
outcome.  Once the temporary directory has been created, `buildAndUpload` calls
`os.RemoveAll` on it exactly once, after every other call of the run (only the log
line reporting a failed removal may follow), and the value it returns does not depend
on the outcome of that removal. -/
theorem buildAndUpload_cleanup {Img : Type} (env : Env Img) (flags : Flags) (ep : episode)
    (tmpDir : String) (h : env.tempDir = .ok tmpDir) :
    (∃ pre post,
      (buildAndUpload env flags ep).trace = pre ++ Event.removeAll tmpDir :: post ∧
      (∀ e ∈ pre, e.isRemoveAll = false ∧ e.isLogPrintf = false) ∧
      (∀ e ∈ post, e.isLogPrintf = true)) ∧
    (buildAndUpload env flags ep).trace.countP Event.isRemoveAll = 1 ∧
    (∀ rm : String → GoError,
      (buildAndUpload { env with removeAll := rm } flags ep).err =
        (buildAndUpload env flags ep).err) := by
  have hsplit : ∃ pre post,
      (buildAndUpload env flags ep).trace = pre ++ Event.removeAll tmpDir :: post ∧
      (∀ e ∈ pre, e.isRemoveAll = false ∧ e.isLogPrintf = false) ∧
      (∀ e ∈ post, e.isLogPrintf = true) := by
    rcases buildAndUpload_cases env flags ep with ⟨x, hx, -⟩ | ⟨d, post, hd, ht, hpost, -, -⟩
    · rw [hx] at h
      cases h
    · have hdd : d = tmpDir := by
        rw [hd] at h
        exact Except.ok.inj h
      subst hdd
      refine ⟨Event.tempDir :: (buildAndUpload_body env flags ep d).trace, post,
        by simpa using ht, ?_, hpost⟩
      intro e he
      rcases List.mem_cons.1 he with rfl | he
      · exact ⟨rfl, rfl⟩
      rcases buildAndUpload_body_cases env flags ep d with ⟨-, pre, hpre, hb, -⟩ | ⟨-, -, hall, -⟩
      · rw [hb] at he
        rcases List.mem_append.1 he with he | he
        · exact ⟨isAssembly_not_removeAll e (hpre e he), isAssembly_not_logPrintf e (hpre e he)⟩
        · simp at he
          subst he
          exact ⟨rfl, rfl⟩
      · exact ⟨isAssembly_not_removeAll e (hall e he), isAssembly_not_logPrintf e (hall e he)⟩
  refine ⟨hsplit, ?_, ?_⟩
  · rcases hsplit with ⟨pre, post, ht, hpre, hpost⟩
    have h1 : List.countP Event.isRemoveAll pre = 0 :=
      List.countP_eq_zero.2 fun e he => by simp [(hpre e he).1]
    have h2 : List.countP Event.isRemoveAll post = 0 :=
      List.countP_eq_zero.2 fun e he => by
        have := hpost e he
        cases e <;> simp_all [Event.isLogPrintf, Event.isRemoveAll]
    rw [ht]
    simp [List.countP_cons, List.countP_append, h1, h2, Event.isRemoveAll]
  · intro rm
    exact buildAndUpload_err_removeAll env flags ep rm

/-- Witness for C5, the cleanup scenario: the encoding tool fails and the removal of
"/tmp/001" is still the last call of the run. -/
theorem buildAndUpload_cleanup_witness :
    (buildAndUpload encodingFailsEnv defaultFlags scenarioEpisode).trace.countP
        Event.isRemoveAll = 1 ∧
      (buildAndUpload encodingFailsEnv defaultFlags scenarioEpisode).trace.getLast? =
        some (Event.removeAll "/tmp/001") ∧
      (buildAndUpload { encodingFailsEnv with removeAll := fun _ => some "busy" }
          defaultFlags scenarioEpisode).err =
        some "could not create video: exit status 1\n" := by
  have h := buildAndUpload_cleanup encodingFailsEnv defaultFlags scenarioEpisode "/tmp/001" rfl
  refine ⟨h.2.1, by decide, ?_⟩
  rw [h.2.2]
  decide

/-- C6: description derivation.  The description passed to `UploadToYouTube` is
"Original post: " followed by the episode link, a blank line and
`dropHTMLTags ep.Desc`; for link "http://x/5" and description "<p>Hi</p>" it is
"Original post: http://x/5\n\nHi". -/
theorem buildAndUpload_description {Img : Type} (env : Env Img) (flags : Flags)
    (ep : episode) (title desc : String) (tags : GoSlice) (vid : String)
    (h : Event.uploadToYouTube title desc tags vid ∈ (buildAndUpload env flags ep).trace) :
    desc = "Original post: " ++ ep.Link ++ "\n\n" ++ dropHTMLTags ep.Desc ∧
      (ep.Link = "http://x/5" → ep.Desc = "<p>Hi</p>" →
        desc = "Original post: http://x/5\n\nHi") := by
  rcases upload_mem_trace env flags ep _ h rfl with ⟨d, -, -, he⟩
  injection he with _ hdesc _ _
  refine ⟨hdesc, ?_⟩
  intro hl hd
  rw [hdesc, hl, hd]
  decide

/-- Witness for C6: the end-to-end scenario, every collaborator succeeding. -/
theorem buildAndUpload_description_witness :
    "Original post: http://x/5\n\nHi" =
      "Original post: " ++ scenarioEpisode.Link ++ "\n\n" ++ dropHTMLTags scenarioEpisode.Desc :=
  (buildAndUpload_description happyEnv defaultFlags scenarioEpisode "Test: GCPPodcast 5"
    "Original post: http://x/5\n\nHi"
    { elems := ["a", "gcppodcast", "podcast"], spare := ["", "", ""] } "/tmp/001/vid.mp4"
    (by decide)).1

/-- C7: tag derivation.  The tag list passed to `UploadToYouTube` is the episode's tags
in order followed by "gcppodcast" and "podcast", whatever the episode's tags are; its
length is `len(ep.Tags) + 2`; the elements visible through the episode's own `Tags`
are unchanged by the run; for tags ["a"] the list is ["a", "gcppodcast", "podcast"]. -/
theorem buildAndUpload_tags {Img : Type} (env : Env Img) (flags : Flags)
    (ep : episode) (title desc : String) (tags : GoSlice) (vid : String)
    (h : Event.uploadToYouTube title desc tags vid ∈ (buildAndUpload env flags ep).trace) :
    tags.elems = ep.Tags.elems ++ ["gcppodcast", "podcast"] ∧
      tags.len = ep.Tags.len + 2 ∧
      (buildAndUpload env flags ep).ep.Tags.elems = ep.Tags.elems ∧
      (ep.Tags.elems = ["a"] → tags.elems = ["a", "gcppodcast", "podcast"]) := by
  rcases upload_mem_trace env flags ep _ h rfl with ⟨d, -, -, he⟩
  injection he with _ _ htags _
  have helems : tags.elems = ep.Tags.elems ++ ["gcppodcast", "podcast"] := by
    rw [htags]
    exact goAppend_fst_elems _ _ _
  refine ⟨helems, ?_, buildAndUpload_ep_tags env flags ep, ?_⟩
  · simp [GoSlice.len, helems]
  · intro ha
    rw [helems, ha]
    rfl

/-- Witness for C7: an episode whose tag slice has spare capacity and already carries
nothing but "a"; the labels are written into the spare cells and the episode still
shows ["a"]. -/
theorem buildAndUpload_tags_witness :
    (["a", "gcppodcast", "podcast"] : List String) =
        roomyEpisode.Tags.elems ++ ["gcppodcast", "podcast"] ∧
      (buildAndUpload happyEnv defaultFlags roomyEpisode).ep.Tags.elems = ["a"] ∧
      (buildAndUpload happyEnv defaultFlags roomyEpisode).ep.Tags.spare =
        ["gcppodcast", "podcast", ""] := by
  have h := buildAndUpload_tags happyEnv defaultFlags roomyEpisode "Test: GCPPodcast 5"
    "Original post: http://x/5\n\nHi"
    { elems := ["a", "gcppodcast", "podcast"], spare := [""] } "/tmp/001/vid.mp4"
    (by decide)
  exact ⟨h.1, h.2.2.1, by decide⟩

/-- C10, evaluated at the failing input: creating and encoding succeed, closing fails,
and `writePNG` returns nil; the error built by the deferred closure ends in the local
variable `err` only.  On the same world `loadPNG`, whose results are named, does
return the close error, and a run of the pipeline in which only the close of the
slide fails goes on to upload and returns nil. -/
theorem writePNG_close_error_lost :
    closeFailsEnv.osCreate "/tmp/001/slide.png" = .ok 4 ∧
      closeFailsEnv.pngEncode 4 (some 2) = none ∧
      closeFailsEnv.fileClose 4 = some "input/output error" ∧
      (writePNG closeFailsEnv "/tmp/001/slide.png" (some 2)).ret = none ∧
      (writePNG closeFailsEnv "/tmp/001/slide.png" (some 2)).err =
        some "could not close /tmp/001/slide.png: <nil>" ∧
      (loadPNG closeFailsEnv "logo.png").err = some "could not close logo.png: <nil>" ∧
      (buildAndUpload slideCloseFailsEnv defaultFlags scenarioEpisode).err = none ∧
      (buildAndUpload slideCloseFailsEnv defaultFlags scenarioEpisode).trace.countP
        Event.isUpload = 1 := by
  refine ⟨rfl, rfl, rfl, ?_, ?_, ?_, ?_, ?_⟩ <;> decide

end Podcast2YouTube
